import Mathlib

/-!
# Verification of the cursor-chat-browser export/lookup core

Shallow embedding of the conversation normalization and export pipeline of
the repository:

* `src/app/api/export/route.ts` — the bulk export route (sqlite driver
  variant): `extractFilePaths`, `processComposerChat`, `processChatTab`,
  and the route handler `GET` (embedded as `exportGET`).
* the better-sqlite3 variant of the same export route (second source file
  of the repository): its `processChatTab` is embedded as
  `processChatTabB`; its route handler has the same control flow.
* `src/app/api/conversations/[id]/route.ts` — the single conversation
  lookup route `GET` (embedded as `conversationGET`).

Conventions of the embedding:

* JavaScript `undefined` / absent object fields are `Option`.
* JavaScript truthiness on strings (`if (x)`, `x || d`, `.filter(Boolean)`)
  treats the empty string and `undefined` as false; on numbers, `0` is
  false; see `jsTruthyText`, `jsOrStr`, `jsOrTimestamp`.
* Machine numbers (epoch-millisecond timestamps, counts) are `Int` / `Nat`;
  the average length computation, a JS float division followed by
  `Math.round`, is modelled exactly over `ℚ` (`jsRound`).
* `new Date(t).toISOString()` is modelled by `formatTimestamp`, an
  injective rendering of the timestamp; no property below inspects the
  text of the rendered string, only which timestamp it renders.
* `new Date(t).getTime()` on an epoch-millisecond number `t` is the
  identity and is modelled as such.
* The sqlite row for a key is `Blob`: `absent` (no row / null value),
  `malformed` (a value on which `JSON.parse` or the immediately following
  field accesses throw), or `ok` with the parsed payload.
* `Array.prototype.sort` is stable (required by the ECMAScript
  specification); it is embedded as the stable insertion sort
  `sortByLastUpdatedDesc` on the comparator `(a, b) => b.lastUpdatedAt -
  a.lastUpdatedAt`.
-/

/-- JS truthiness of a possibly-absent string (`if (bubble.text)` etc.):
`undefined` and the empty string are falsy. -/
def jsTruthyText : Option String → Bool
  | some s => s != ""
  | none => false

/-- JS `x || d` for a possibly-absent string `x` (used by
`composer.name || 'Untitled'`): absent or empty falls back to `d`. -/
def jsOrStr : Option String → String → String
  | some s, d => if s = "" then d else s
  | none, d => d

/-- JS `x || d` for a possibly-absent number `x` (used by
`bubble.timestamp || (timestamp + index * 1000)`): absent or `0` (falsy)
falls back to `d`. -/
def jsOrTimestamp : Option Int → Int → Int
  | some t, d => if t = 0 then d else t
  | none, d => d

/-- JS `Math.round`: round half toward positive infinity, modelled exactly
on rationals as the floor of `q + 1/2`. -/
def jsRound (q : ℚ) : Int := (q + 1/2).floor

theorem jsRound_eq_floor (q : ℚ) : jsRound q = ⌊q + 1/2⌋ := by
  have h : ⌊q + 1/2⌋ = (q + 1/2).floor := by
    rw [Rat.floor_def, Rat.floor_def']
  rw [jsRound, h]

/-! ## Raw data model

The fields below are exactly those the two route files read off the parsed
store blobs (the repository's `@/types/workspace` module is not part of
the analysed sources, so the raw records are modelled by their use sites).
-/

/-- One inline code selection (`s.text`). -/
structure RawSelection where
  text : String
deriving Repr, DecidableEq, Inhabited

/-- One file selection; `fsPath` models the access path `file.uri?.fsPath`
(absent `uri` or absent `fsPath` collapse to `none`). -/
structure RawFileSelection where
  fsPath : Option String
deriving Repr, DecidableEq, Inhabited

/-- One folder selection (`f.path`). -/
structure RawFolderSelection where
  path : String
deriving Repr, DecidableEq, Inhabited

/-- One selected doc (`d.title`, `d.content`). -/
structure RawDoc where
  title : String
  content : String
deriving Repr, DecidableEq, Inhabited

/-- One selected commit (`c.hash`, `c.message`). -/
structure RawCommit where
  hash : String
  message : String
deriving Repr, DecidableEq, Inhabited

/-- A raw context sub-structure, attached to a whole composer thread or to
one of its messages. Every field may be absent. -/
structure RawContext where
  selections : Option (List RawSelection) := none
  fileSelections : Option (List RawFileSelection) := none
  folderSelections : Option (List RawFolderSelection) := none
  selectedDocs : Option (List RawDoc) := none
  selectedCommits : Option (List RawCommit) := none
deriving Repr, DecidableEq, Inhabited

/-- One raw composer message. `type` is the raw role discriminant
(`msg.type === 1` means user-authored). -/
structure ComposerMessage where
  bubbleId : String
  type : Int
  text : String
  timestamp : Int
  context : Option RawContext := none
deriving Repr, DecidableEq, Inhabited

/-- One raw composer thread (an element of `composerData.allComposers`). -/
structure ComposerChat where
  composerId : String
  name : Option String := none
  createdAt : Int
  lastUpdatedAt : Int
  conversation : Option (List ComposerMessage) := none
  context : Option RawContext := none
deriving Repr, DecidableEq, Inhabited

/-- One raw chat bubble. `type` is the raw role discriminant
(`bubble.type === 'ai'` means assistant-authored); `timestamp` is the
optional explicit per-bubble timestamp read by the better-sqlite3 variant. -/
structure ChatBubble where
  type : String
  text : Option String := none
  timestamp : Option Int := none
  selections : Option (List RawSelection) := none
  modelType : Option String := none
deriving Repr, DecidableEq, Inhabited

/-- One raw chat tab (an element of `chatData.tabs`). The export routes
read the field named `id`; the lookup route reads the field named `tabId`
on the same raw store objects, so both are carried here as independent
store-controlled fields. `timestamp` is the tab's single anchor timestamp
in epoch milliseconds. -/
structure ChatTab where
  id : String
  tabId : String
  title : String
  timestamp : Int
  bubbles : List ChatBubble
deriving Repr, DecidableEq, Inhabited

/-! ## Canonical (exported) data model — the `Exported*` interfaces -/

/-- Embeds `ExportedMessage.context`. Absent sub-fields stay absent in the JSON
output. -/
structure MessageContext where
  codeSelections : Option (List String) := none
  files : Option (List String) := none
  folders : Option (List String) := none
  docs : Option (List RawDoc) := none
  commits : Option (List RawCommit) := none
deriving Repr, DecidableEq, Inhabited

/-- Embeds `ExportedMessage.metadata`. -/
structure MessageMetadata where
  modelType : Option String := none
  bubbleId : Option String := none
deriving Repr, DecidableEq, Inhabited

/-- Embeds `ExportedMessage`. Its `role` is carried as the literal string the code
produces (`'user'` / `'assistant'`). -/
structure ExportedMessage where
  id : String
  role : String
  content : String
  timestamp : Int
  formattedTimestamp : String
  context : MessageContext
  metadata : MessageMetadata
deriving Repr, DecidableEq, Inhabited

/-- Embeds `ExportedConversation.workspace`. -/
structure WorkspaceRef where
  id : String
  folder : Option String := none
deriving Repr, DecidableEq, Inhabited

/-- Embeds `ExportedConversation.summary`. Here `hasCodeContext` is `Option Bool`
because the composer path computes it with JS `||` / `&&`, whose value is
the JS `undefined` (here `none`) when the thread has no files and no
thread-level selection list. -/
structure ConversationSummary where
  messageCount : Nat
  userMessageCount : Nat
  assistantMessageCount : Nat
  hasCodeContext : Option Bool
  filesReferenced : List String
  averageMessageLength : Int
deriving Repr, DecidableEq, Inhabited

/-- Embeds `ExportedConversation`. Its `type` is the literal string
(`'composer'` / `'chat'`). -/
structure ExportedConversation where
  id : String
  type : String
  title : String
  messages : List ExportedMessage
  createdAt : Int
  lastUpdatedAt : Int
  formattedCreatedAt : String
  formattedLastUpdatedAt : String
  workspace : WorkspaceRef
  summary : ConversationSummary
deriving Repr, DecidableEq, Inhabited

/-- Embeds `ExportData.metadata`. -/
structure ExportMetadata where
  exportVersion : String
  source : String
  description : String
deriving Repr, DecidableEq, Inhabited

/-- Embeds `ExportData`, the bulk export envelope. -/
structure ExportData where
  exportedAt : String
  exportedAtTimestamp : Int
  totalConversations : Nat
  totalMessages : Nat
  conversations : List ExportedConversation
  metadata : ExportMetadata
deriving Repr, DecidableEq, Inhabited

/-- Embeds `formatTimestamp`, that is `new Date(timestamp).toISOString()`, as an
injective rendering of the epoch-millisecond value (no property below
inspects the rendered text). -/
def formatTimestamp (timestamp : Int) : String := toString timestamp

/-! ## `extractFilePaths` (composer file-path union with Set semantics) -/

/-- Embeds `Set.add` followed by eventual `Array.from`: JS `Set` iterates in
insertion order, so adding keeps the list unchanged when the element is
already present and appends it otherwise. -/
def setAdd (l : List String) (s : String) : List String :=
  if s ∈ l then l else l ++ [s]

/-- Embeds the step `files.add(file.uri.fsPath)` guarded by the truthiness
of `file.uri?.fsPath` for one file
selection: absent or empty paths are falsy and skipped. -/
def addPath (acc : List String) (p : Option String) : List String :=
  match p with
  | some s => if s = "" then acc else setAdd acc s
  | none => acc

/-- The `forEach`-add over one optional `fileSelections` array (a guard
`if (ctx?.fileSelections)` followed by `forEach`). -/
def addFileSelections (acc : List String) (fs : Option (List RawFileSelection)) : List String :=
  match fs with
  | some l => l.foldl (fun a f => addPath a f.fsPath) acc
  | none => acc

/-- Embeds `extractFilePaths(composer)`: the deduplicating union of the thread
level context's file paths and every conversation message's context's file
paths, in first-insertion order. -/
def extractFilePaths (c : ComposerChat) : List String :=
  let fromMain := addFileSelections [] (c.context.bind (·.fileSelections))
  (c.conversation.getD []).foldl
    (fun a msg => addFileSelections a (msg.context.bind (·.fileSelections)))
    fromMain

/-! ## `processComposerChat` -/

/-- The message object pushed for one raw composer message. -/
def mkComposerMessage (m : ComposerMessage) : ExportedMessage :=
  { id := m.bubbleId
    role := if m.type == 1 then "user" else "assistant"
    content := m.text
    timestamp := m.timestamp
    formattedTimestamp := formatTimestamp m.timestamp
    context :=
      { codeSelections :=
          (m.context.bind (·.selections)).map
            (fun sels => (sels.map (·.text)).filter (fun s => s != ""))
        files :=
          (m.context.bind (·.fileSelections)).map
            (fun fs => (fs.filterMap (·.fsPath)).filter (fun s => s != ""))
        folders :=
          (m.context.bind (·.folderSelections)).map (fun l => l.map (·.path))
        docs :=
          (m.context.bind (·.selectedDocs)).map
            (fun l => l.map (fun d => { title := d.title, content := d.content }))
        commits :=
          (m.context.bind (·.selectedCommits)).map
            (fun l => l.map (fun cm => { hash := cm.hash, message := cm.message })) }
    metadata := { modelType := none, bubbleId := some m.bubbleId } }

/-- Embeds the guard on `composer.conversation` being present and non-empty
followed by the push loop. -/
def composerMessages (c : ComposerChat) : List ExportedMessage :=
  match c.conversation with
  | some l => if l.length > 0 then l.map mkComposerMessage else []
  | none => []

/-- The JS value of
`allFiles.length > 0 || (composer.context?.selections && composer.context.selections.length > 0)`:
`none` models the JS `undefined` that results when `allFiles` is empty and
the thread context or its `selections` field is absent. -/
def composerHasCodeContext (allFiles : List String) (c : ComposerChat) : Option Bool :=
  if allFiles.length > 0 then some true
  else
    match c.context with
    | none => none
    | some ctx =>
      match ctx.selections with
      | none => none
      | some sels => some (decide (sels.length > 0))

/-- The shared average computation:
`messages.length > 0 ? messages.reduce((sum, m) => sum + m.content.length, 0) / messages.length : 0`. -/
def avgLength (messages : List ExportedMessage) : ℚ :=
  if messages.length > 0 then
    (messages.foldl (fun s m => s + (m.content.length : ℚ)) 0) / messages.length
  else 0

/-- Embeds `processComposerChat(composer, workspaceId, workspaceFolder)`. -/
def processComposerChat (c : ComposerChat) (workspaceId : String)
    (workspaceFolder : Option String) : ExportedConversation :=
  let messages := composerMessages c
  let userMessages := messages.filter (fun m => m.role == "user")
  let assistantMessages := messages.filter (fun m => m.role == "assistant")
  let allFiles := extractFilePaths c
  { id := c.composerId
    type := "composer"
    title := jsOrStr c.name "Untitled"
    messages := messages
    createdAt := c.createdAt
    lastUpdatedAt := c.lastUpdatedAt
    formattedCreatedAt := formatTimestamp c.createdAt
    formattedLastUpdatedAt := formatTimestamp c.lastUpdatedAt
    workspace := { id := workspaceId, folder := workspaceFolder }
    summary :=
      { messageCount := messages.length
        userMessageCount := userMessages.length
        assistantMessageCount := assistantMessages.length
        hasCodeContext := composerHasCodeContext allFiles c
        filesReferenced := allFiles
        averageMessageLength := jsRound (avgLength messages) } }

/-! ## `processChatTab` — sqlite variant (`src/app/api/export/route.ts`) -/

/-- The message pushed for the bubble at (zero-based) index `i` by the
sqlite variant: timestamps are always synthesized as
`timestamp + index * 1000`, the context carries only `codeSelections`, the
metadata carries `modelType`. -/
def mkChatMessage (tab : ChatTab) (i : Nat) (b : ChatBubble) : ExportedMessage :=
  { id := tab.id ++ "-" ++ toString i
    role := if b.type == "ai" then "assistant" else "user"
    content := b.text.getD ""
    timestamp := tab.timestamp + (i : Int) * 1000
    formattedTimestamp := formatTimestamp (tab.timestamp + (i : Int) * 1000)
    context :=
      { codeSelections :=
          (b.selections).map (fun sels => (sels.map (·.text)).filter (fun s => s != "")) }
    metadata := { modelType := b.modelType, bubbleId := none } }

/-- The bubble loop of the sqlite variant: `forEach((bubble, index))` with
the `if (bubble.text)` truthiness guard, starting at index `i`. -/
def chatMessages (tab : ChatTab) : Nat → List ChatBubble → List ExportedMessage
  | _, [] => []
  | i, b :: bs =>
    if jsTruthyText b.text then mkChatMessage tab i b :: chatMessages tab (i + 1) bs
    else chatMessages tab (i + 1) bs

/-- Embeds `processChatTab(chatTab, workspaceId, workspaceFolder)` of the sqlite
variant. -/
def processChatTab (tab : ChatTab) (workspaceId : String)
    (workspaceFolder : Option String) : ExportedConversation :=
  let timestamp := tab.timestamp
  let messages := chatMessages tab 0 tab.bubbles
  let userMessages := messages.filter (fun m => m.role == "user")
  let assistantMessages := messages.filter (fun m => m.role == "assistant")
  { id := tab.id
    type := "chat"
    title := tab.title
    messages := messages
    createdAt := timestamp
    lastUpdatedAt := timestamp
    formattedCreatedAt := formatTimestamp timestamp
    formattedLastUpdatedAt := formatTimestamp timestamp
    workspace := { id := workspaceId, folder := workspaceFolder }
    summary :=
      { messageCount := messages.length
        userMessageCount := userMessages.length
        assistantMessageCount := assistantMessages.length
        hasCodeContext :=
          some (tab.bubbles.any (fun b =>
            match b.selections with
            | some s => decide (s.length > 0)
            | none => false))
        filesReferenced := []
        averageMessageLength := jsRound (avgLength messages) } }

/-! ## `processChatTab` — better-sqlite3 variant (`processChatTabB`) -/

/-- The message pushed for the bubble at index `i` by the better-sqlite3
variant: `timestamp: bubble.timestamp || (timestamp + index * 1000)`,
empty `context: {}` and `metadata: {}`. -/
def mkChatMessageB (tab : ChatTab) (i : Nat) (b : ChatBubble) : ExportedMessage :=
  { id := tab.id ++ "-" ++ toString i
    role := if b.type == "ai" then "assistant" else "user"
    content := b.text.getD ""
    timestamp := jsOrTimestamp b.timestamp (tab.timestamp + (i : Int) * 1000)
    formattedTimestamp :=
      formatTimestamp (jsOrTimestamp b.timestamp (tab.timestamp + (i : Int) * 1000))
    context := {}
    metadata := {} }

/-- The bubble loop of the better-sqlite3 variant. -/
def chatMessagesB (tab : ChatTab) : Nat → List ChatBubble → List ExportedMessage
  | _, [] => []
  | i, b :: bs =>
    if jsTruthyText b.text then mkChatMessageB tab i b :: chatMessagesB tab (i + 1) bs
    else chatMessagesB tab (i + 1) bs

/-- Embeds `processChatTab(chatTab, workspaceId, workspaceFolder)` of the
better-sqlite3 variant: same envelope, but `hasCodeContext: false` is a
literal and `filesReferenced: []`. -/
def processChatTabB (tab : ChatTab) (workspaceId : String)
    (workspaceFolder : Option String) : ExportedConversation :=
  let timestamp := tab.timestamp
  let messages := chatMessagesB tab 0 tab.bubbles
  let userMessages := messages.filter (fun m => m.role == "user")
  let assistantMessages := messages.filter (fun m => m.role == "assistant")
  { id := tab.id
    type := "chat"
    title := tab.title
    messages := messages
    createdAt := timestamp
    lastUpdatedAt := timestamp
    formattedCreatedAt := formatTimestamp timestamp
    formattedLastUpdatedAt := formatTimestamp timestamp
    workspace := { id := workspaceId, folder := workspaceFolder }
    summary :=
      { messageCount := messages.length
        userMessageCount := userMessages.length
        assistantMessageCount := assistantMessages.length
        hasCodeContext := some false
        filesReferenced := []
        averageMessageLength := jsRound (avgLength messages) } }

/-! ## The workspace store model and the bulk export route (`exportGET`) -/

/-- The state of one sqlite row (`db.get` result plus the `JSON.parse` of
its `value`): `absent` when there is no row or a null value (the
`result?.value` guard fails), `malformed` when parsing the value (or the
immediately following field access, e.g. `allComposers.forEach`) throws,
`ok` with the parsed payload otherwise. -/
inductive Blob (α : Type) where
  | absent
  | malformed
  | ok (data : α)
deriving Repr, DecidableEq, Inhabited

/-- One entry of the workspace storage directory as the routes observe it:
`name` is the directory entry name; `isDirectory` is `entry.isDirectory()`;
`hasDb` is `existsSync(<name>/state.vscdb)`; `dbOpenFails` makes opening the
store throw; `workspaceFolder` is the `folder` field of a readable
`workspace.json` (`none` when that file is missing or unreadable — that
read is wrapped in its own try/catch); `composerBlob` is the row under key
`composer.composerData` (payload: `allComposers`); `chatBlob` is the row
under key `workbench.panel.aichat.view.aichat.chatdata` (payload: the
optional `tabs` field of the parsed value). -/
structure Workspace where
  name : String
  isDirectory : Bool := true
  hasDb : Bool := true
  dbOpenFails : Bool := false
  workspaceFolder : Option String := none
  composerBlob : Blob (List ComposerChat) := .absent
  chatBlob : Blob (Option (List ChatTab)) := .absent
deriving Repr, DecidableEq, Inhabited

/-- The composer half of one workspace iteration of the export loop
(guarded by `includeComposers`). A malformed blob throws, which the route
only catches outside the whole loop. -/
def composerConvs (includeComposers : Bool) (w : Workspace) :
    Except Unit (List ExportedConversation) :=
  if includeComposers then
    match w.composerBlob with
    | .absent => .ok []
    | .malformed => .error ()
    | .ok cs => .ok (cs.map (fun c => processComposerChat c w.name w.workspaceFolder))
  else .ok []

/-- The chat half of one workspace iteration of the export loop (guarded by
`includeChats`; `if (chatData.tabs)` skips a parsed value without tabs). -/
def chatConvs (includeChats : Bool) (w : Workspace) :
    Except Unit (List ExportedConversation) :=
  if includeChats then
    match w.chatBlob with
    | .absent => .ok []
    | .malformed => .error ()
    | .ok none => .ok []
    | .ok (some tabs) => .ok (tabs.map (fun t => processChatTab t w.name w.workspaceFolder))
  else .ok []

/-- One iteration of the export loop body: non-directories are skipped,
workspaces without a store file are skipped (`continue`), a store that
fails to open throws, then composers are read before chats. -/
def workspaceConversations (includeChats includeComposers : Bool) (w : Workspace) :
    Except Unit (List ExportedConversation) :=
  if !w.isDirectory then .ok []
  else if !w.hasDb then .ok []
  else if w.dbOpenFails then .error ()
  else
    match composerConvs includeComposers w with
    | .error e => .error e
    | .ok cs =>
      match chatConvs includeChats w with
      | .error e => .error e
      | .ok ts => .ok (cs ++ ts)

/-- The whole `for (const entry of entries)` loop, accumulating
`conversations.push(...)` in enumeration order; the first uncaught throw
aborts the loop. -/
def collectExport (includeChats includeComposers : Bool) :
    List Workspace → Except Unit (List ExportedConversation)
  | [] => .ok []
  | w :: rest =>
    match workspaceConversations includeChats includeComposers w with
    | .error e => .error e
    | .ok cs =>
      match collectExport includeChats includeComposers rest with
      | .error e => .error e
      | .ok others => .ok (cs ++ others)

/-- Stable insertion of one conversation into a list sorted non-increasing
by `lastUpdatedAt`: the element is placed before the first entry whose key
is less than or equal to its own. The sort below folds from the right, so
an element is only ever inserted into the sorted image of its original
suffix, which yields exactly the stable result. -/
def insertDesc (x : ExportedConversation) : List ExportedConversation → List ExportedConversation
  | [] => [x]
  | y :: ys =>
    if y.lastUpdatedAt ≤ x.lastUpdatedAt then x :: y :: ys
    else y :: insertDesc x ys

/-- Embeds `conversations.sort` on the comparator `(a, b) => b.lastUpdatedAt - a.lastUpdatedAt`:
ECMAScript mandates a stable sort, embedded as stable insertion sort. -/
def sortByLastUpdatedDesc (l : List ExportedConversation) : List ExportedConversation :=
  l.foldr insertDesc []

/-- The fixed metadata literal of the export envelope. -/
def exportEnvelopeMetadata : ExportMetadata :=
  { exportVersion := "1.0.0"
    source := "cursor-chat-browser"
    description := "Exported conversation data for semantic search and pattern analysis" }

/-- The export route handler `GET`. `includeChats` / `includeComposers` are
the already-decoded query flags (`searchParams.get(..) !== 'false'`);
`now` is the wall-clock time read by `Date.now()` /
`new Date().toISOString()`; `entries` is the workspace directory listing
(`fs.readdir`) in its natural order. `Except.error` is the route's catch
branch: the 500 `{ error: 'Failed to export data' }` response. -/
def exportGET (includeChats includeComposers : Bool) (now : Int)
    (entries : List Workspace) : Except Unit ExportData :=
  match collectExport includeChats includeComposers entries with
  | .error e => .error e
  | .ok convs =>
    let conversations := sortByLastUpdatedDesc convs
    let totalMessages := conversations.foldl (fun sum conv => sum + conv.messages.length) 0
    .ok
      { exportedAt := formatTimestamp now
        exportedAtTimestamp := now
        totalConversations := conversations.length
        totalMessages := totalMessages
        conversations := conversations
        metadata := exportEnvelopeMetadata }

/-! ## The single-conversation lookup route (`conversationGET`) -/

/-- The record carried in the success response's `conversation` field: the
raw store record (not re-normalized). -/
inductive LookupRecord where
  | composer (c : ComposerChat)
  | chat (t : ChatTab)
deriving Repr, DecidableEq

/-- The observable responses of the lookup route: the two 400s, the two
404 shapes, the catch-all 500, and the success payload
`{ success, conversation, metadata: { id, type, workspaceId } }`. -/
inductive LookupResponse where
  | missingParams
  | invalidType
  | workspaceNotFound
  | notFound
  | serverError
  | ok (conversation : LookupRecord) (metaId : String) (metaType : String)
      (metaWorkspaceId : String)
deriving Repr, DecidableEq

/-- Embeds the defaulting step on `composer.conversation`:
the lookup route defaults an absent conversation array in place before
returning the record. -/
def ensureConversation (c : ComposerChat) : ComposerChat :=
  { c with conversation := some (c.conversation.getD []) }

/-- The composer branch of the lookup route body. -/
def lookupComposer (w : Workspace) (id wsId : String) : LookupResponse :=
  match w.composerBlob with
  | .malformed => .serverError
  | .absent => .notFound
  | .ok cs =>
    match cs.find? (fun c => c.composerId == id) with
    | some c => .ok (.composer (ensureConversation c)) c.composerId "composer" wsId
    | none => .notFound

/-- The chat branch of the lookup route body. A parsed chat blob without a
`tabs` field makes `data.tabs.find(...)` throw, landing in the catch (500). -/
def lookupChat (w : Workspace) (id wsId : String) : LookupResponse :=
  match w.chatBlob with
  | .malformed => .serverError
  | .absent => .notFound
  | .ok none => .serverError
  | .ok (some tabs) =>
    match tabs.find? (fun t => t.tabId == id) with
    | some t => .ok (.chat t) t.tabId "chat" wsId
    | none => .notFound

/-- The lookup route handler `GET` over the same workspace store model.
`id` is the path parameter, `workspaceId`/`type` the query parameters
(`searchParams.get` gives `none` when absent; the guard
`!workspaceId || !type` also rejects empty strings). -/
def conversationGET (entries : List Workspace) (id : String)
    (workspaceId : Option String) (type_ : Option String) : LookupResponse :=
  match workspaceId, type_ with
  | some wsId, some ty =>
    if wsId = "" ∨ ty = "" then .missingParams
    else if ty ≠ "chat" ∧ ty ≠ "composer" then .invalidType
    else
      match entries.find? (fun w => w.name == wsId) with
      | none => .workspaceNotFound
      | some w =>
        if !w.hasDb then .workspaceNotFound
        else if w.dbOpenFails then .serverError
        else if ty = "composer" then lookupComposer w id wsId
        else lookupChat w id wsId
  | _, _ => .missingParams

/-! ## Helper lemmas: message lists and roles -/

theorem composerMessages_eq_map (c : ComposerChat) :
    composerMessages c = (c.conversation.getD []).map mkComposerMessage := by
  unfold composerMessages
  match c.conversation with
  | none => rfl
  | some l =>
    simp only [Option.getD_some]
    by_cases h : l.length > 0
    · simp [h]
    · have : l = [] := List.length_eq_zero.mp (by omega)
      simp [this]

theorem chatMessages_map (tab : ChatTab) {β : Type} (g : ExportedMessage → β) :
    ∀ (i : Nat) (bs : List ChatBubble),
      (chatMessages tab i bs).map g =
        (List.enumFrom i bs).filterMap
          (fun p => if jsTruthyText p.2.text then some (g (mkChatMessage tab p.1 p.2)) else none)
  | _, [] => rfl
  | i, b :: bs => by
    simp only [chatMessages, List.enumFrom, List.filterMap_cons]
    by_cases h : jsTruthyText b.text
    · simp [h, chatMessages_map tab g (i + 1) bs]
    · simp [h, chatMessages_map tab g (i + 1) bs]

theorem chatMessagesB_map (tab : ChatTab) {β : Type} (g : ExportedMessage → β) :
    ∀ (i : Nat) (bs : List ChatBubble),
      (chatMessagesB tab i bs).map g =
        (List.enumFrom i bs).filterMap
          (fun p => if jsTruthyText p.2.text then some (g (mkChatMessageB tab p.1 p.2)) else none)
  | _, [] => rfl
  | i, b :: bs => by
    simp only [chatMessagesB, List.enumFrom, List.filterMap_cons]
    by_cases h : jsTruthyText b.text
    · simp [h, chatMessagesB_map tab g (i + 1) bs]
    · simp [h, chatMessagesB_map tab g (i + 1) bs]

theorem chatMessages_map_filter (tab : ChatTab) {β : Type} (g : ExportedMessage → β)
    (spec : ChatBubble → β)
    (hg : ∀ i b, g (mkChatMessage tab i b) = spec b) :
    ∀ (i : Nat) (bs : List ChatBubble),
      (chatMessages tab i bs).map g =
        (bs.filter (fun b => jsTruthyText b.text)).map spec
  | _, [] => rfl
  | i, b :: bs => by
    simp only [chatMessages, List.filter_cons]
    by_cases h : jsTruthyText b.text
    · simp [h, hg, chatMessages_map_filter tab g spec hg (i + 1) bs]
    · simp [h, chatMessages_map_filter tab g spec hg (i + 1) bs]

theorem chatMessagesB_map_filter (tab : ChatTab) {β : Type} (g : ExportedMessage → β)
    (spec : ChatBubble → β)
    (hg : ∀ i b, g (mkChatMessageB tab i b) = spec b) :
    ∀ (i : Nat) (bs : List ChatBubble),
      (chatMessagesB tab i bs).map g =
        (bs.filter (fun b => jsTruthyText b.text)).map spec
  | _, [] => rfl
  | i, b :: bs => by
    simp only [chatMessagesB, List.filter_cons]
    by_cases h : jsTruthyText b.text
    · simp [h, hg, chatMessagesB_map_filter tab g spec hg (i + 1) bs]
    · simp [h, chatMessagesB_map_filter tab g spec hg (i + 1) bs]

theorem composer_roles_map (c : ComposerChat) (w : String) (f : Option String) :
    (processComposerChat c w f).messages.map (fun m => m.role) =
      (c.conversation.getD []).map (fun m => if m.type = 1 then "user" else "assistant") := by
  show (composerMessages c).map (fun m => m.role) = _
  rw [composerMessages_eq_map, List.map_map]
  apply List.map_congr_left
  intro m _
  simp only [Function.comp, mkComposerMessage]
  by_cases h : m.type = 1 <;> simp [h]

theorem chat_roles_map (tab : ChatTab) (w : String) (f : Option String) :
    (processChatTab tab w f).messages.map (fun m => m.role) =
      (tab.bubbles.filter (fun b => jsTruthyText b.text)).map
        (fun b => if b.type = "ai" then "assistant" else "user") := by
  show (chatMessages tab 0 tab.bubbles).map (fun m => m.role) = _
  apply chatMessages_map_filter
  intro i b
  simp only [mkChatMessage]
  by_cases h : b.type = "ai" <;> simp [h]

theorem chatB_roles_map (tab : ChatTab) (w : String) (f : Option String) :
    (processChatTabB tab w f).messages.map (fun m => m.role) =
      (tab.bubbles.filter (fun b => jsTruthyText b.text)).map
        (fun b => if b.type = "ai" then "assistant" else "user") := by
  show (chatMessagesB tab 0 tab.bubbles).map (fun m => m.role) = _
  apply chatMessagesB_map_filter
  intro i b
  simp only [mkChatMessageB]
  by_cases h : b.type = "ai" <;> simp [h]

theorem roles_closed_of_map {l : List ExportedMessage} {src : Type} {xs : List src}
    {P : src → Prop} [DecidablePred P]
    (h : l.map (fun m => m.role) = xs.map (fun x => if P x then "user" else "assistant")) :
    ∀ m ∈ l, m.role = "user" ∨ m.role = "assistant" := by
  intro m hm
  have hmem : m.role ∈ l.map (fun m => m.role) := List.mem_map_of_mem _ hm
  rw [h] at hmem
  obtain ⟨x, _, hx⟩ := List.mem_map.mp hmem
  by_cases hp : P x
  · left; rw [← hx]; simp [hp]
  · right; rw [← hx]; simp [hp]

theorem roles_closed_of_map' {l : List ExportedMessage} {src : Type} {xs : List src}
    {P : src → Prop} [DecidablePred P]
    (h : l.map (fun m => m.role) = xs.map (fun x => if P x then "assistant" else "user")) :
    ∀ m ∈ l, m.role = "user" ∨ m.role = "assistant" := by
  intro m hm
  have hmem : m.role ∈ l.map (fun m => m.role) := List.mem_map_of_mem _ hm
  rw [h] at hmem
  obtain ⟨x, _, hx⟩ := List.mem_map.mp hmem
  by_cases hp : P x
  · right; rw [← hx]; simp [hp]
  · left; rw [← hx]; simp [hp]

theorem composer_roles_closed (c : ComposerChat) (w : String) (f : Option String) :
    ∀ m ∈ (processComposerChat c w f).messages, m.role = "user" ∨ m.role = "assistant" :=
  roles_closed_of_map (composer_roles_map c w f)

theorem chat_roles_closed (tab : ChatTab) (w : String) (f : Option String) :
    ∀ m ∈ (processChatTab tab w f).messages, m.role = "user" ∨ m.role = "assistant" :=
  roles_closed_of_map' (chat_roles_map tab w f)

theorem chatB_roles_closed (tab : ChatTab) (w : String) (f : Option String) :
    ∀ m ∈ (processChatTabB tab w f).messages, m.role = "user" ∨ m.role = "assistant" :=
  roles_closed_of_map' (chatB_roles_map tab w f)

theorem filter_role_partition (l : List ExportedMessage)
    (h : ∀ m ∈ l, m.role = "user" ∨ m.role = "assistant") :
    (l.filter (fun m => m.role == "user")).length +
      (l.filter (fun m => m.role == "assistant")).length = l.length := by
  induction l with
  | nil => rfl
  | cons m l ih =>
    have hm := h m (List.mem_cons_self m l)
    have hrest : ∀ x ∈ l, x.role = "user" ∨ x.role = "assistant" :=
      fun x hx => h x (List.mem_cons_of_mem m hx)
    rcases hm with hu | ha
    · simp only [List.filter_cons, hu, show (("user" : String) == "user") = true from rfl,
        show (("user" : String) == "assistant") = false from rfl, if_true, if_false,
        Bool.false_eq_true, List.length_cons]
      have := ih hrest
      omega
    · simp only [List.filter_cons, ha, show (("assistant" : String) == "user") = false from rfl,
        show (("assistant" : String) == "assistant") = true from rfl, if_true, if_false,
        Bool.false_eq_true, List.length_cons]
      have := ih hrest
      omega

/-! ## Helper lemmas: the stable sort -/

theorem mem_insertDesc {x a : ExportedConversation} :
    ∀ {l : List ExportedConversation}, a ∈ insertDesc x l ↔ a = x ∨ a ∈ l
  | [] => by simp [insertDesc]
  | y :: ys => by
    by_cases h : y.lastUpdatedAt ≤ x.lastUpdatedAt
    · simp [insertDesc, h]
    · simp only [insertDesc, if_neg h, List.mem_cons, mem_insertDesc (l := ys)]
      tauto

theorem pairwise_insertDesc (x : ExportedConversation) :
    ∀ {l : List ExportedConversation},
      l.Pairwise (fun a b => b.lastUpdatedAt ≤ a.lastUpdatedAt) →
      (insertDesc x l).Pairwise (fun a b => b.lastUpdatedAt ≤ a.lastUpdatedAt)
  | [], _ => by simp [insertDesc]
  | y :: ys, h => by
    rcases List.pairwise_cons.mp h with ⟨hy, hys⟩
    by_cases hle : y.lastUpdatedAt ≤ x.lastUpdatedAt
    · rw [insertDesc, if_pos hle]
      refine List.pairwise_cons.mpr ⟨?_, h⟩
      intro b hb
      rcases List.mem_cons.mp hb with rfl | hbys
      · exact hle
      · exact le_trans (hy b hbys) hle
    · rw [insertDesc, if_neg hle]
      refine List.pairwise_cons.mpr ⟨?_, pairwise_insertDesc x hys⟩
      intro b hb
      rcases mem_insertDesc.mp hb with rfl | hbys
      · omega
      · exact hy b hbys

theorem filter_insertDesc_pos (k : Int) (x : ExportedConversation)
    (hx : x.lastUpdatedAt = k) :
    ∀ (l : List ExportedConversation),
      (insertDesc x l).filter (fun c => c.lastUpdatedAt == k) =
        x :: l.filter (fun c => c.lastUpdatedAt == k)
  | [] => by simp [insertDesc, List.filter_cons, hx]
  | y :: ys => by
    by_cases hle : y.lastUpdatedAt ≤ x.lastUpdatedAt
    · rw [insertDesc, if_pos hle]
      simp [List.filter_cons, hx]
    · rw [insertDesc, if_neg hle]
      have hyk : (y.lastUpdatedAt == k) = false := by
        simp only [beq_eq_false_iff_ne, ne_eq]
        omega
      rw [List.filter_cons, List.filter_cons, hyk]
      simp only [Bool.false_eq_true, if_false]
      exact filter_insertDesc_pos k x hx ys

theorem filter_insertDesc_neg (k : Int) (x : ExportedConversation)
    (hx : ¬ x.lastUpdatedAt = k) :
    ∀ (l : List ExportedConversation),
      (insertDesc x l).filter (fun c => c.lastUpdatedAt == k) =
        l.filter (fun c => c.lastUpdatedAt == k)
  | [] => by simp [insertDesc, List.filter_cons, hx]
  | y :: ys => by
    by_cases hle : y.lastUpdatedAt ≤ x.lastUpdatedAt
    · rw [insertDesc, if_pos hle]
      rw [List.filter_cons (x := x)]
      simp only [show (x.lastUpdatedAt == k) = false by simpa using hx, Bool.false_eq_true,
        if_false]
    · rw [insertDesc, if_neg hle]
      rw [List.filter_cons, List.filter_cons]
      rcases hyk : (y.lastUpdatedAt == k) with _ | _
      · simp only [Bool.false_eq_true, if_false]
        exact filter_insertDesc_neg k x hx ys
      · simp only [if_true]
        rw [filter_insertDesc_neg k x hx ys]

theorem sortDesc_pairwise (l : List ExportedConversation) :
    (sortByLastUpdatedDesc l).Pairwise (fun a b => b.lastUpdatedAt ≤ a.lastUpdatedAt) := by
  induction l with
  | nil => simp [sortByLastUpdatedDesc]
  | cons x xs ih =>
    rw [sortByLastUpdatedDesc, List.foldr_cons]
    exact pairwise_insertDesc x ih

theorem sortDesc_filter (k : Int) (l : List ExportedConversation) :
    (sortByLastUpdatedDesc l).filter (fun c => c.lastUpdatedAt == k) =
      l.filter (fun c => c.lastUpdatedAt == k) := by
  induction l with
  | nil => rfl
  | cons x xs ih =>
    rw [sortByLastUpdatedDesc, List.foldr_cons,
      show List.foldr insertDesc [] xs = sortByLastUpdatedDesc xs from rfl]
    by_cases hx : x.lastUpdatedAt = k
    · rw [filter_insertDesc_pos k x hx, ih, List.filter_cons, if_pos (by simpa using hx)]
    · rw [filter_insertDesc_neg k x hx, ih, List.filter_cons]
      simp only [show (x.lastUpdatedAt == k) = false by simpa using hx, Bool.false_eq_true,
        if_false]

theorem mem_sortDesc {a : ExportedConversation} :
    ∀ {l : List ExportedConversation}, a ∈ sortByLastUpdatedDesc l ↔ a ∈ l
  | [] => Iff.rfl
  | x :: xs => by
    rw [sortByLastUpdatedDesc, List.foldr_cons, mem_insertDesc]
    rw [show List.foldr insertDesc [] xs = sortByLastUpdatedDesc xs from rfl]
    rw [mem_sortDesc (l := xs)]
    simp [eq_comm]

/-! ## Helper lemmas: the average computation -/

theorem foldl_add_length (g : ExportedMessage → ℚ) :
    ∀ (l : List ExportedMessage) (a : ℚ), l.foldl (fun s m => s + g m) a = a + (l.map g).sum
  | [], a => by simp
  | m :: l, a => by
    rw [List.foldl_cons, foldl_add_length g l (a + g m)]
    simp [List.map_cons, List.sum_cons]
    ring

theorem avgRound_spec (l : List ExportedMessage) :
    jsRound (avgLength l) =
      if l.length = 0 then 0
      else ⌊(l.map (fun m => (m.content.length : ℚ))).sum / (l.length : ℚ) + 1/2⌋ := by
  by_cases h : l.length = 0
  · rw [if_pos h, avgLength, if_neg (by omega), jsRound_eq_floor, zero_add]
    exact Int.floor_eq_iff.mpr (by norm_num)
  · rw [if_neg h, avgLength, if_pos (by omega), jsRound_eq_floor,
      foldl_add_length (fun m => (m.content.length : ℚ)) l 0, zero_add]

/-! ## Helper lemmas: file-path extraction -/

/-- Statement-side predicate: the optional context carries the non-empty
file path `p` among its `fileSelections`. -/
def contextHasFilePath (ctx : Option RawContext) (p : String) : Prop :=
  p ≠ "" ∧ ∃ fs, ctx.bind (fun x => x.fileSelections) = some fs ∧
    ∃ f ∈ fs, f.fsPath = some p

theorem mem_setAdd {a s : String} {l : List String} :
    a ∈ setAdd l s ↔ a ∈ l ∨ a = s := by
  by_cases h : s ∈ l
  · rw [setAdd, if_pos h]
    constructor
    · exact Or.inl
    · rintro (ha | rfl)
      · exact ha
      · exact h
  · rw [setAdd, if_neg h]
    simp

theorem nodup_setAdd {s : String} {l : List String} (h : l.Nodup) :
    (setAdd l s).Nodup := by
  by_cases hs : s ∈ l
  · rwa [setAdd, if_pos hs]
  · rw [setAdd, if_neg hs]
    exact List.Nodup.append h (List.nodup_singleton s)
      (fun a ha hb => hs ((List.mem_singleton.mp hb) ▸ ha))

theorem mem_addPath {a : String} {l : List String} {p : Option String} :
    a ∈ addPath l p ↔ a ∈ l ∨ (a ≠ "" ∧ p = some a) := by
  match p with
  | none => simp [addPath]
  | some s =>
    by_cases hs : s = ""
    · subst hs
      rw [addPath, if_pos rfl]
      constructor
      · exact Or.inl
      · rintro (ha | ⟨hne, heq⟩)
        · exact ha
        · cases heq; exact absurd rfl hne
    · rw [addPath, if_neg hs, mem_setAdd]
      constructor
      · rintro (ha | rfl)
        · exact Or.inl ha
        · exact Or.inr ⟨hs, rfl⟩
      · rintro (ha | ⟨hne, heq⟩)
        · exact Or.inl ha
        · cases heq; exact Or.inr rfl

theorem nodup_addPath {l : List String} {p : Option String} (h : l.Nodup) :
    (addPath l p).Nodup := by
  match p with
  | none => exact h
  | some s =>
    by_cases hs : s = ""
    · subst hs; rwa [addPath, if_pos rfl]
    · rw [addPath, if_neg hs]; exact nodup_setAdd h

theorem mem_addFileSelections {a : String} {fs : Option (List RawFileSelection)} :
    ∀ {l : List String},
      a ∈ addFileSelections l fs ↔
        a ∈ l ∨ (a ≠ "" ∧ ∃ sel, fs = some sel ∧ ∃ f ∈ sel, f.fsPath = some a) := by
  match fs with
  | none => intro l; simp [addFileSelections]
  | some sel =>
    suffices h : ∀ (sel : List RawFileSelection) (l : List String),
        a ∈ sel.foldl (fun acc f => addPath acc f.fsPath) l ↔
          a ∈ l ∨ (a ≠ "" ∧ ∃ f ∈ sel, f.fsPath = some a) by
      intro l
      rw [addFileSelections]
      rw [h sel l]
      constructor
      · rintro (ha | ⟨hne, f, hf, hp⟩)
        · exact Or.inl ha
        · exact Or.inr ⟨hne, sel, rfl, f, hf, hp⟩
      · rintro (ha | ⟨hne, sel', hsel, f, hf, hp⟩)
        · exact Or.inl ha
        · cases hsel; exact Or.inr ⟨hne, f, hf, hp⟩
    intro sel
    induction sel with
    | nil => intro l; simp
    | cons f rest ih =>
      intro l
      rw [List.foldl_cons, ih]
      rw [mem_addPath]
      constructor
      · rintro ((ha | ⟨hne, hp⟩) | ⟨hne, f', hf', hp'⟩)
        · exact Or.inl ha
        · exact Or.inr ⟨hne, f, List.mem_cons_self f rest, hp⟩
        · exact Or.inr ⟨hne, f', List.mem_cons_of_mem f hf', hp'⟩
      · rintro (ha | ⟨hne, f', hf', hp'⟩)
        · exact Or.inl (Or.inl ha)
        · rcases List.mem_cons.mp hf' with rfl | hmem
          · exact Or.inl (Or.inr ⟨hne, hp'⟩)
          · exact Or.inr ⟨hne, f', hmem, hp'⟩

theorem nodup_addFileSelections {fs : Option (List RawFileSelection)} {l : List String}
    (h : l.Nodup) : (addFileSelections l fs).Nodup := by
  match fs with
  | none => exact h
  | some sel =>
    rw [addFileSelections]
    induction sel generalizing l with
    | nil => exact h
    | cons f rest ih => exact ih (nodup_addPath h)

theorem nodup_foldl_addFileSelections :
    ∀ (msgs : List ComposerMessage) (acc : List String), acc.Nodup →
      (msgs.foldl
        (fun l m => addFileSelections l (m.context.bind fun x => x.fileSelections)) acc).Nodup
  | [], _, h => h
  | m :: msgs, acc, h => by
    rw [List.foldl_cons]
    exact nodup_foldl_addFileSelections msgs _ (nodup_addFileSelections h)

theorem mem_foldl_addFileSelections (a : String) :
    ∀ (msgs : List ComposerMessage) (acc : List String),
      a ∈ msgs.foldl
          (fun l m => addFileSelections l (m.context.bind fun x => x.fileSelections)) acc ↔
        a ∈ acc ∨ ∃ m ∈ msgs, contextHasFilePath m.context a
  | [], acc => by simp
  | m :: msgs, acc => by
    rw [List.foldl_cons, mem_foldl_addFileSelections a msgs _, mem_addFileSelections]
    constructor
    · rintro ((ha | hctx) | ⟨m', hm', hctx'⟩)
      · exact Or.inl ha
      · exact Or.inr ⟨m, List.mem_cons_self m msgs, hctx⟩
      · exact Or.inr ⟨m', List.mem_cons_of_mem m hm', hctx'⟩
    · rintro (ha | ⟨m', hm', hctx'⟩)
      · exact Or.inl (Or.inl ha)
      · rcases List.mem_cons.mp hm' with rfl | hmem
        · exact Or.inl (Or.inr hctx')
        · exact Or.inr ⟨m', hmem, hctx'⟩

theorem extractFilePaths_nodup (c : ComposerChat) : (extractFilePaths c).Nodup := by
  rw [extractFilePaths]
  exact nodup_foldl_addFileSelections _ _ (nodup_addFileSelections List.nodup_nil)

theorem mem_extractFilePaths {a : String} (c : ComposerChat) :
    a ∈ extractFilePaths c ↔
      contextHasFilePath c.context a ∨
        ∃ m ∈ c.conversation.getD [], contextHasFilePath m.context a := by
  rw [extractFilePaths, mem_foldl_addFileSelections, mem_addFileSelections]
  simp only [List.not_mem_nil, false_or]
  rfl

/-! ## Helper lemmas: the export pipeline and the lookup -/

/-- Statement-side predicate: what has to hold of one directory entry for
the export loop not to throw on it. -/
def exportWorkspaceOk (includeChats includeComposers : Bool) (w : Workspace) : Prop :=
  w.isDirectory = true → w.hasDb = true →
    (w.dbOpenFails = false ∧
      (includeComposers = true → w.composerBlob ≠ Blob.malformed) ∧
      (includeChats = true → w.chatBlob ≠ Blob.malformed))

theorem composerConvs_ok_iff (icc : Bool) (w : Workspace) :
    (∃ l, composerConvs icc w = Except.ok l) ↔
      (icc = true → w.composerBlob ≠ Blob.malformed) := by
  rcases icc with _ | _
  · simp [composerConvs]
  · cases hb : w.composerBlob <;> simp [composerConvs, hb]

theorem chatConvs_ok_iff (ic : Bool) (w : Workspace) :
    (∃ l, chatConvs ic w = Except.ok l) ↔
      (ic = true → w.chatBlob ≠ Blob.malformed) := by
  rcases ic with _ | _
  · simp [chatConvs]
  · cases hb : w.chatBlob with
    | absent => simp [chatConvs, hb]
    | malformed => simp [chatConvs, hb]
    | ok tabs => cases tabs <;> simp [chatConvs, hb]

theorem workspaceConversations_ok_iff (ic icc : Bool) (w : Workspace) :
    (∃ l, workspaceConversations ic icc w = Except.ok l) ↔ exportWorkspaceOk ic icc w := by
  rw [workspaceConversations, exportWorkspaceOk]
  cases hd : w.isDirectory with
  | false => simp
  | true =>
    cases hb : w.hasDb with
    | false => simp
    | true =>
      cases ho : w.dbOpenFails with
      | true => simp
      | false =>
        simp only [Bool.not_true, Bool.false_eq_true, if_false, if_true, forall_const,
          true_and]
        rcases hcc : composerConvs icc w with _ | cs
        · have := (composerConvs_ok_iff icc w)
          rw [hcc] at this
          simp only [reduceCtorEq, exists_const, false_iff] at this
          simp only [reduceCtorEq, exists_const, false_iff]
          tauto
        · rcases hch : chatConvs ic w with _ | ts
          · have h1 := (composerConvs_ok_iff icc w)
            rw [hcc] at h1
            have h2 := (chatConvs_ok_iff ic w)
            rw [hch] at h2
            simp only [reduceCtorEq, exists_const, false_iff] at h2
            simp only [reduceCtorEq, exists_const, false_iff]
            simp only [Except.ok.injEq, exists_eq', true_iff] at h1
            tauto
          · have h1 := (composerConvs_ok_iff icc w)
            rw [hcc] at h1
            have h2 := (chatConvs_ok_iff ic w)
            rw [hch] at h2
            simp only [Except.ok.injEq, exists_eq', true_iff] at h1 h2
            simp only [Except.ok.injEq, exists_eq', true_iff]
            exact ⟨h1, h2⟩

theorem collectExport_ok_iff (ic icc : Bool) :
    ∀ (ws : List Workspace),
      (∃ l, collectExport ic icc ws = Except.ok l) ↔
        ∀ w ∈ ws, exportWorkspaceOk ic icc w
  | [] => by simp [collectExport]
  | w :: rest => by
    rw [collectExport]
    rcases hw : workspaceConversations ic icc w with _ | cs
    · have h1 := workspaceConversations_ok_iff ic icc w
      rw [hw] at h1
      simp only [reduceCtorEq, exists_const, false_iff] at h1
      simp only [reduceCtorEq, exists_const, false_iff]
      intro hall
      exact h1 (hall w (List.mem_cons_self w rest))
    · have h1 := workspaceConversations_ok_iff ic icc w
      rw [hw] at h1
      simp only [Except.ok.injEq, exists_eq', true_iff] at h1
      rcases hrest : collectExport ic icc rest with _ | others
      · have h2 := collectExport_ok_iff ic icc rest
        rw [hrest] at h2
        simp only [reduceCtorEq, exists_const, false_iff] at h2
        simp only [reduceCtorEq, exists_const, false_iff]
        intro hall
        exact h2 (fun x hx => hall x (List.mem_cons_of_mem w hx))
      · have h2 := collectExport_ok_iff ic icc rest
        rw [hrest] at h2
        simp only [Except.ok.injEq, exists_eq', true_iff] at h2
        simp only [Except.ok.injEq, exists_eq', true_iff]
        intro x hx
        rcases List.mem_cons.mp hx with rfl | hmem
        · exact h1
        · exact h2 x hmem

theorem exportGET_ok_iff (ic icc : Bool) (now : Int) (ws : List Workspace) :
    (∃ e, exportGET ic icc now ws = Except.ok e) ↔
      ∀ w ∈ ws, exportWorkspaceOk ic icc w := by
  rw [← collectExport_ok_iff ic icc ws]
  rw [exportGET]
  rcases h : collectExport ic icc ws with _ | l <;> simp

theorem exportGET_conversations (ic icc : Bool) (now : Int) (ws : List Workspace)
    (e : ExportData) (h : exportGET ic icc now ws = Except.ok e) :
    ∃ convs, collectExport ic icc ws = Except.ok convs ∧
      e.conversations = sortByLastUpdatedDesc convs := by
  rw [exportGET] at h
  rcases hc : collectExport ic icc ws with _ | l
  · rw [hc] at h; exact absurd h (by simp)
  · rw [hc] at h
    refine ⟨l, rfl, ?_⟩
    cases h
    rfl

theorem mem_collectExport {conv : ExportedConversation} (ic icc : Bool) :
    ∀ {ws : List Workspace} {l : List ExportedConversation},
      collectExport ic icc ws = Except.ok l → conv ∈ l →
      ∃ w ∈ ws, ∃ lw, workspaceConversations ic icc w = Except.ok lw ∧ conv ∈ lw
  | [], l, h, hm => by
    rw [collectExport] at h
    cases h
    exact absurd hm (List.not_mem_nil conv)
  | w :: rest, l, h, hm => by
    rw [collectExport] at h
    rcases hw : workspaceConversations ic icc w with _ | cs <;> rw [hw] at h
    · exact absurd h (by simp)
    · rcases hrest : collectExport ic icc rest with _ | others <;> rw [hrest] at h
      · exact absurd h (by simp)
      · cases h
        rcases List.mem_append.mp hm with hcs | hothers
        · exact ⟨w, List.mem_cons_self w rest, cs, hw, hcs⟩
        · obtain ⟨w', hw', lw', hok', hm'⟩ := mem_collectExport ic icc hrest hothers
          exact ⟨w', List.mem_cons_of_mem w hw', lw', hok', hm'⟩

theorem mem_workspaceConversations {conv : ExportedConversation} {ic icc : Bool}
    {w : Workspace} {lw : List ExportedConversation}
    (h : workspaceConversations ic icc w = Except.ok lw) (hm : conv ∈ lw) :
    w.isDirectory = true ∧ w.hasDb = true ∧ w.dbOpenFails = false ∧
      ((icc = true ∧ ∃ cs, w.composerBlob = Blob.ok cs ∧
          ∃ c ∈ cs, conv = processComposerChat c w.name w.workspaceFolder) ∨
       (ic = true ∧ ∃ tabs, w.chatBlob = Blob.ok (some tabs) ∧
          ∃ t ∈ tabs, conv = processChatTab t w.name w.workspaceFolder)) := by
  rw [workspaceConversations] at h
  cases hd : w.isDirectory with
  | false =>
    rw [hd] at h
    simp only [Bool.not_false, if_true] at h
    cases h
    exact absurd hm (List.not_mem_nil conv)
  | true =>
    rw [hd] at h
    simp only [Bool.not_true, Bool.false_eq_true, if_false] at h
    cases hb : w.hasDb with
    | false =>
      rw [hb] at h
      simp only [Bool.not_false, if_true] at h
      cases h
      exact absurd hm (List.not_mem_nil conv)
    | true =>
      rw [hb] at h
      simp only [Bool.not_true, Bool.false_eq_true, if_false] at h
      cases ho : w.dbOpenFails with
      | true =>
        rw [ho] at h
        simp only [if_true] at h
        exact absurd h (by simp)
      | false =>
        rw [ho] at h
        simp only [Bool.false_eq_true, if_false] at h
        refine ⟨rfl, rfl, rfl, ?_⟩
        rcases hcc : composerConvs icc w with _ | cs <;> rw [hcc] at h
        · exact absurd h (by simp)
        rcases hch : chatConvs ic w with _ | ts <;> rw [hch] at h
        · exact absurd h (by simp)
        cases h
        rcases List.mem_append.mp hm with hmc | hmt
        · left
          rw [composerConvs] at hcc
          cases hicc : icc with
          | false =>
            rw [hicc] at hcc
            simp only [Bool.false_eq_true, if_false] at hcc
            cases hcc
            exact absurd hmc (List.not_mem_nil conv)
          | true =>
            rw [hicc] at hcc
            simp only [if_true] at hcc
            rcases hblob : w.composerBlob with _ | _ | raw <;> rw [hblob] at hcc
            · cases hcc; exact absurd hmc (List.not_mem_nil conv)
            · exact absurd hcc (by simp)
            · cases hcc
              obtain ⟨c, hc, hceq⟩ := List.mem_map.mp hmc
              exact ⟨rfl, raw, rfl, c, hc, hceq.symm⟩
        · right
          rw [chatConvs] at hch
          cases hic : ic with
          | false =>
            rw [hic] at hch
            simp only [Bool.false_eq_true, if_false] at hch
            cases hch
            exact absurd hmt (List.not_mem_nil conv)
          | true =>
            rw [hic] at hch
            simp only [if_true] at hch
            rcases hblob : w.chatBlob with _ | _ | rawTabs <;> rw [hblob] at hch
            · cases hch; exact absurd hmt (List.not_mem_nil conv)
            · exact absurd hch (by simp)
            · rcases rawTabs with _ | tabs
              · cases hch; exact absurd hmt (List.not_mem_nil conv)
              · cases hch
                obtain ⟨t, ht, hteq⟩ := List.mem_map.mp hmt
                exact ⟨rfl, tabs, rfl, t, ht, hteq.symm⟩

theorem find?_exists {α : Type} {p : α → Bool} {a : α} :
    ∀ {l : List α}, a ∈ l → p a = true → ∃ b, l.find? p = some b ∧ p b = true
  | [], hm, _ => absurd hm (List.not_mem_nil a)
  | x :: xs, hm, hp => by
    cases hx : p x with
    | true => exact ⟨x, List.find?_cons_of_pos xs hx, hx⟩
    | false =>
      rcases List.mem_cons.mp hm with rfl | hmem
      · rw [hx] at hp; cases hp
      · obtain ⟨b, hb, hpb⟩ := find?_exists hmem hp
        exact ⟨b, by rw [List.find?_cons_of_neg xs (by simp [hx])]; exact hb, hpb⟩

theorem find?_name_of_nodup {w : Workspace} :
    ∀ {ws : List Workspace}, (ws.map (fun x => x.name)).Nodup → w ∈ ws →
      ws.find? (fun x => x.name == w.name) = some w
  | [], _, hm => absurd hm (List.not_mem_nil w)
  | x :: xs, hnd, hm => by
    rcases List.mem_cons.mp hm with rfl | hmem
    · exact List.find?_cons_of_pos xs (by simp)
    · have hx : (x.name == w.name) = false := by
        rw [List.map_cons, List.nodup_cons] at hnd
        simp only [beq_eq_false_iff_ne, ne_eq]
        intro heq
        exact hnd.1 (heq ▸ List.mem_map.mpr ⟨w, hmem, rfl⟩)
      rw [List.find?_cons_of_neg xs (by simp [hx])]
      refine find?_name_of_nodup ?_ hmem
      rw [List.map_cons, List.nodup_cons] at hnd
      exact hnd.2

/-! ## Concrete scenario inputs used by counterexamples and witnesses -/

/-- Scenario A of the specification: two composer messages with texts of
lengths 2 and 5. -/
def scenarioAComposer : ComposerChat :=
  { composerId := "x"
    createdAt := 0
    lastUpdatedAt := 0
    conversation := some
      [ { bubbleId := "b1", type := 1, text := "Hi", timestamp := 100 },
        { bubbleId := "b2", type := 2, text := "Hello", timestamp := 200 } ] }

/-- Scenario B of the specification: a tab anchored at 1000 with three
non-empty bubbles of which only the second carries an explicit timestamp
5000. -/
def scenarioBTab : ChatTab :=
  { id := "tb"
    tabId := "tb"
    title := "B"
    timestamp := 1000
    bubbles :=
      [ { type := "user", text := some "a" },
        { type := "ai", text := some "b", timestamp := some 5000 },
        { type := "user", text := some "c" } ] }

/-- A tab one bubble of which carries a non-empty selection list. -/
def tabWithSelection : ChatTab :=
  { id := "t"
    tabId := "t"
    title := "T"
    timestamp := 0
    bubbles := [ { type := "user", text := some "hi", selections := some [{ text := "sel" }] } ] }

/-- A composer thread with no thread-level context and no files. -/
def composerNoContext : ComposerChat :=
  { composerId := "c0", createdAt := 0, lastUpdatedAt := 0 }

/-! ## C7 -/

/-- C7: for every canonical conversation produced by any of the three
normalizers, `summary.userMessageCount + summary.assistantMessageCount`
equals `summary.messageCount`, which equals the length of the messages
list. -/
theorem c7_message_counts :
    (∀ (c : ComposerChat) (w : String) (f : Option String),
      (processComposerChat c w f).summary.messageCount =
          (processComposerChat c w f).messages.length ∧
        (processComposerChat c w f).summary.userMessageCount +
            (processComposerChat c w f).summary.assistantMessageCount =
          (processComposerChat c w f).summary.messageCount) ∧
    (∀ (tab : ChatTab) (w : String) (f : Option String),
      (processChatTab tab w f).summary.messageCount =
          (processChatTab tab w f).messages.length ∧
        (processChatTab tab w f).summary.userMessageCount +
            (processChatTab tab w f).summary.assistantMessageCount =
          (processChatTab tab w f).summary.messageCount) ∧
    (∀ (tab : ChatTab) (w : String) (f : Option String),
      (processChatTabB tab w f).summary.messageCount =
          (processChatTabB tab w f).messages.length ∧
        (processChatTabB tab w f).summary.userMessageCount +
            (processChatTabB tab w f).summary.assistantMessageCount =
          (processChatTabB tab w f).summary.messageCount) := by
  refine ⟨fun c w f => ⟨rfl, ?_⟩, fun tab w f => ⟨rfl, ?_⟩, fun tab w f => ⟨rfl, ?_⟩⟩
  · exact filter_role_partition _ (composer_roles_closed c w f)
  · exact filter_role_partition _ (chat_roles_closed tab w f)
  · exact filter_role_partition _ (chatB_roles_closed tab w f)

/-! ## C10 -/

/-- C10: every normalized message's role is exactly the string `"user"` or
`"assistant"`; the composer normalizer maps discriminant `1` to `"user"`
and every other discriminant to `"assistant"`, and both chat normalizers
map discriminant `"ai"` to `"assistant"` and everything else to `"user"`
(one entry per bubble with truthy text, in order). -/
theorem c10_role_closed_mapping :
    (∀ (c : ComposerChat) (w : String) (f : Option String),
      (processComposerChat c w f).messages.map (fun m => m.role) =
          (c.conversation.getD []).map
            (fun m => if m.type = 1 then "user" else "assistant") ∧
        ∀ m ∈ (processComposerChat c w f).messages,
          m.role = "user" ∨ m.role = "assistant") ∧
    (∀ (tab : ChatTab) (w : String) (f : Option String),
      (processChatTab tab w f).messages.map (fun m => m.role) =
          (tab.bubbles.filter (fun b => jsTruthyText b.text)).map
            (fun b => if b.type = "ai" then "assistant" else "user") ∧
        ∀ m ∈ (processChatTab tab w f).messages,
          m.role = "user" ∨ m.role = "assistant") ∧
    (∀ (tab : ChatTab) (w : String) (f : Option String),
      (processChatTabB tab w f).messages.map (fun m => m.role) =
          (tab.bubbles.filter (fun b => jsTruthyText b.text)).map
            (fun b => if b.type = "ai" then "assistant" else "user") ∧
        ∀ m ∈ (processChatTabB tab w f).messages,
          m.role = "user" ∨ m.role = "assistant") :=
  ⟨fun c w f => ⟨composer_roles_map c w f, composer_roles_closed c w f⟩,
   fun tab w f => ⟨chat_roles_map tab w f, chat_roles_closed tab w f⟩,
   fun tab w f => ⟨chatB_roles_map tab w f, chatB_roles_closed tab w f⟩⟩

/-! ## C9 -/

/-- C9: for every canonical conversation of any of the three normalizers,
`summary.averageMessageLength` is `0` when the messages list is empty and
otherwise the round-half-up of the sum of content lengths divided by
`summary.messageCount`; in particular Scenario A (content lengths 2 and 5)
yields `round(7/2) = 4`. -/
theorem c9_average_message_length :
    (∀ (c : ComposerChat) (w : String) (f : Option String),
      (processComposerChat c w f).summary.averageMessageLength =
        if (processComposerChat c w f).summary.messageCount = 0 then 0
        else
          ⌊((processComposerChat c w f).messages.map
                (fun m => (m.content.length : ℚ))).sum /
              ((processComposerChat c w f).summary.messageCount : ℚ) + 1/2⌋) ∧
    (∀ (tab : ChatTab) (w : String) (f : Option String),
      (processChatTab tab w f).summary.averageMessageLength =
        if (processChatTab tab w f).summary.messageCount = 0 then 0
        else
          ⌊((processChatTab tab w f).messages.map
                (fun m => (m.content.length : ℚ))).sum /
              ((processChatTab tab w f).summary.messageCount : ℚ) + 1/2⌋) ∧
    (∀ (tab : ChatTab) (w : String) (f : Option String),
      (processChatTabB tab w f).summary.averageMessageLength =
        if (processChatTabB tab w f).summary.messageCount = 0 then 0
        else
          ⌊((processChatTabB tab w f).messages.map
                (fun m => (m.content.length : ℚ))).sum /
              ((processChatTabB tab w f).summary.messageCount : ℚ) + 1/2⌋) ∧
    (processComposerChat scenarioAComposer "w" none).summary.averageMessageLength = 4 := by
  refine ⟨fun c w f => avgRound_spec (composerMessages c),
    fun tab w f => avgRound_spec (chatMessages tab 0 tab.bubbles),
    fun tab w f => avgRound_spec (chatMessagesB tab 0 tab.bubbles), ?_⟩
  rw [show (processComposerChat scenarioAComposer "w" none).summary.averageMessageLength
      = jsRound (avgLength (composerMessages scenarioAComposer)) from rfl]
  rw [jsRound_eq_floor]
  have h1 : avgLength (composerMessages scenarioAComposer) = 7/2 := by
    simp [avgLength, composerMessages, mkComposerMessage, scenarioAComposer,
      show "Hi".length = 2 from rfl, show "Hello".length = 5 from rfl]
    norm_num
  rw [h1, show (7/2 + 1/2 : ℚ) = ((4 : Int) : ℚ) by norm_num]
  exact Int.floor_intCast 4

/-! ## C8 -/

/-- C8: for every composer-derived conversation, `summary.filesReferenced`
holds no duplicate path and a (non-empty) path string belongs to it exactly
when it is a file-selection path of the thread-level context or of some
conversation message's context, so it is the set union of the two path
collections. -/
theorem c8_files_referenced_nodup_union (c : ComposerChat) (w : String)
    (f : Option String) :
    ((processComposerChat c w f).summary.filesReferenced).Nodup ∧
      ∀ p, p ∈ (processComposerChat c w f).summary.filesReferenced ↔
        (contextHasFilePath c.context p ∨
          ∃ m ∈ c.conversation.getD [], contextHasFilePath m.context p) :=
  ⟨extractFilePaths_nodup c, fun _ => mem_extractFilePaths c⟩

/-! ## C5 -/

/-- C5 counterexample: the better-sqlite3 chat normalizer emits
`hasCodeContext = false` for a tab one of whose bubbles carries a
non-empty selection list, and the composer normalizer emits the JS
`undefined` (not a boolean) for a thread with no context and no files —
both contradict the claim that `hasCodeContext` is a boolean that is true
exactly under the claimed conditions. -/
theorem c5_counterexample :
    (processChatTabB tabWithSelection "w" none).summary.hasCodeContext = some false ∧
      (∃ b ∈ tabWithSelection.bubbles, ∃ s, b.selections = some s ∧ s ≠ []) ∧
      (processComposerChat composerNoContext "w" none).summary.hasCodeContext = none := by
  refine ⟨rfl, ?_, rfl⟩
  refine ⟨{ type := "user", text := some "hi", selections := some [{ text := "sel" }] },
    ?_, [{ text := "sel" }], rfl, by simp⟩
  show _ ∈ [_]
  exact List.mem_singleton.mpr rfl

/-- C5 amended: in the sqlite export route, a composer conversation's
`hasCodeContext` is `some true` exactly when `filesReferenced` is
non-empty or the thread-level context carries a non-empty selection list
(but it is the JS `undefined` rather than `false` whenever there are no
files and the thread context or its selection list is absent), and a chat
conversation's `hasCodeContext` is a boolean that is true exactly when
some bubble carries a non-empty selection list; in the better-sqlite3
variant a chat conversation's `hasCodeContext` is the constant `false`. -/
theorem c5_amended_has_code_context :
    (∀ (c : ComposerChat) (w : String) (f : Option String),
      (processComposerChat c w f).summary.hasCodeContext = some true ↔
        (extractFilePaths c ≠ [] ∨
          ∃ ctx, c.context = some ctx ∧ ∃ sels, ctx.selections = some sels ∧ sels ≠ [])) ∧
    (∀ (tab : ChatTab) (w : String) (f : Option String),
      ((processChatTab tab w f).summary.hasCodeContext).isSome = true ∧
        ((processChatTab tab w f).summary.hasCodeContext = some true ↔
          ∃ b ∈ tab.bubbles, ∃ s, b.selections = some s ∧ s ≠ [])) ∧
    (∀ (tab : ChatTab) (w : String) (f : Option String),
      (processChatTabB tab w f).summary.hasCodeContext = some false) := by
  refine ⟨fun c w f => ?_, fun tab w f => ⟨rfl, ?_⟩, fun tab w f => rfl⟩
  · show composerHasCodeContext (extractFilePaths c) c = some true ↔ _
    rw [composerHasCodeContext]
    by_cases hf : (extractFilePaths c).length > 0
    · rw [if_pos hf]
      simp only [true_iff]
      exact Or.inl (List.length_pos.mp hf)
    · rw [if_neg hf]
      have hnil : extractFilePaths c = [] := List.length_eq_zero.mp (by omega)
      rcases hctx : c.context with _ | ctx
      · simp [hnil]
      · rcases hsel : ctx.selections with _ | sels
        · simp [hnil, hsel]
        · simp [hnil, hsel, List.length_pos]
  · show some (tab.bubbles.any _) = some true ↔ _
    rw [Option.some_inj, List.any_eq_true]
    constructor
    · rintro ⟨b, hb, hp⟩
      match hs : b.selections with
      | none => rw [hs] at hp; cases hp
      | some s =>
        rw [hs] at hp
        simp only [decide_eq_true_eq] at hp
        refine ⟨b, hb, s, hs, ?_⟩
        intro hnil
        rw [hnil] at hp
        exact absurd hp (by simp)
    · rintro ⟨b, hb, s, hs, hne⟩
      refine ⟨b, hb, ?_⟩
      rw [hs]
      simp only [decide_eq_true_eq]
      cases s with
      | nil => exact absurd rfl hne
      | cons a l => simp

/-! ## C2 -/

/-- C2 counterexample: on Scenario B (anchor 1000, three non-empty bubbles,
only the second carrying an explicit timestamp 5000), the sqlite export
route's chat normalizer produces effective timestamps `[1000, 2000, 3000]`,
not the `[1000, 5000, 3000]` the claim requires — the bubble's explicit
timestamp is ignored by this normalizer, so the claimed rule does not hold
uniformly across the system. -/
theorem c2_counterexample :
    (processChatTab scenarioBTab "w" none).messages.map (fun m => m.timestamp) =
        [1000, 2000, 3000] ∧
      ([1000, 2000, 3000] : List Int) ≠ [1000, 5000, 3000] :=
  ⟨rfl, by decide⟩

/-- C2 amended: the sqlite variant (`processChatTab`) synthesizes every
kept bubble's timestamp as the tab anchor plus the bubble's zero-based
index times 1000 ms, ignoring any explicit bubble timestamp; only the
better-sqlite3 variant (`processChatTabB`) uses the bubble's own explicit
timestamp — and only when it is present and non-zero (JS `||`) — falling
back to the same anchor-plus-index rule, which on Scenario B yields
`[1000, 5000, 3000]`. -/
theorem c2_amended_chat_timestamps :
    (∀ (tab : ChatTab) (w : String) (f : Option String),
      (processChatTab tab w f).messages.map (fun m => m.timestamp) =
        tab.bubbles.enum.filterMap
          (fun p => if jsTruthyText p.2.text then
            some (tab.timestamp + (p.1 : Int) * 1000) else none)) ∧
    (∀ (tab : ChatTab) (w : String) (f : Option String),
      (processChatTabB tab w f).messages.map (fun m => m.timestamp) =
        tab.bubbles.enum.filterMap
          (fun p => if jsTruthyText p.2.text then
            some (jsOrTimestamp p.2.timestamp (tab.timestamp + (p.1 : Int) * 1000))
            else none)) ∧
    (processChatTabB scenarioBTab "w" none).messages.map (fun m => m.timestamp) =
      [1000, 5000, 3000] := by
  refine ⟨fun tab w f => ?_, fun tab w f => ?_, rfl⟩
  · show (chatMessages tab 0 tab.bubbles).map (fun m => m.timestamp) = _
    rw [chatMessages_map tab (fun m => m.timestamp) 0 tab.bubbles]
    rfl
  · show (chatMessagesB tab 0 tab.bubbles).map (fun m => m.timestamp) = _
    rw [chatMessagesB_map tab (fun m => m.timestamp) 0 tab.bubbles]
    rfl

/-! ## C6 -/

/-- C6: a successful bulk export's conversation list is pairwise
non-increasing in `lastUpdatedAt`, and the sort is stable: for every key,
the sub-list of conversations with that `lastUpdatedAt` equals the
corresponding sub-list of the unsorted enumeration-order collection the
loop produced. -/
theorem c6_sorted_stable (ic icc : Bool) (now : Int) (ws : List Workspace)
    (e : ExportData) (h : exportGET ic icc now ws = Except.ok e) :
    e.conversations.Pairwise (fun a b => b.lastUpdatedAt ≤ a.lastUpdatedAt) ∧
      ∃ convs, collectExport ic icc ws = Except.ok convs ∧
        ∀ k, e.conversations.filter (fun c => c.lastUpdatedAt == k) =
          convs.filter (fun c => c.lastUpdatedAt == k) := by
  obtain ⟨convs, hc, he⟩ := exportGET_conversations ic icc now ws e h
  rw [he]
  exact ⟨sortDesc_pairwise convs, convs, hc, fun k => sortDesc_filter k convs⟩

/-- A store with three composer conversations two of which tie on
`lastUpdatedAt`, exercising stability. -/
def stabilityStore : List Workspace :=
  [ { name := "w1"
      composerBlob := Blob.ok
        [ { composerId := "a", createdAt := 0, lastUpdatedAt := 5 },
          { composerId := "b", createdAt := 0, lastUpdatedAt := 9 },
          { composerId := "c", createdAt := 0, lastUpdatedAt := 5 } ] } ]

/-- The export the stability store produces. -/
def stabilityExport : ExportData :=
  match exportGET true true 0 stabilityStore with
  | Except.ok e => e
  | Except.error _ => default

theorem c6_witness :
    stabilityExport.conversations.Pairwise (fun a b => b.lastUpdatedAt ≤ a.lastUpdatedAt) ∧
      ∃ convs, collectExport true true stabilityStore = Except.ok convs ∧
        ∀ k, stabilityExport.conversations.filter (fun c => c.lastUpdatedAt == k) =
          convs.filter (fun c => c.lastUpdatedAt == k) :=
  c6_sorted_stable true true 0 stabilityStore stabilityExport rfl

/-! ## C1 -/

/-- A workspace whose composer blob does not parse. -/
def malformedWorkspace : Workspace := { name := "w1", composerBlob := Blob.malformed }

/-- A healthy workspace holding one composer conversation. -/
def healthyWorkspace : Workspace :=
  { name := "w2", composerBlob := Blob.ok [scenarioAComposer] }

/-- C1 counterexample: with a malformed composer blob in the first
workspace and a healthy second workspace, the bulk export returns the
error response (the 500 catch branch) even though directory enumeration
succeeded — the healthy workspace's conversation, which an export of it
alone does produce, is not merely accompanied by an omission but lost with
the whole request. -/
theorem c1_counterexample :
    exportGET true true 0 [malformedWorkspace, healthyWorkspace] = Except.error () ∧
      ∃ e, exportGET true true 0 [healthyWorkspace] = Except.ok e ∧
        e.conversations.map (fun c => c.id) = ["x"] :=
  ⟨rfl, ⟨_, rfl, rfl⟩⟩

/-- C1 amended: the bulk export succeeds exactly when every enumerated
directory entry that has a store file can be opened and has no malformed
included blob; a missing store file is skipped and an unreadable
`workspace.json` is tolerated (the success condition does not mention the
folder metadata), but a store that cannot be opened or a malformed
composer/chat blob aborts the whole export with the error response rather
than omitting only that workspace. -/
theorem c1_amended_export_success_iff (ic icc : Bool) (now : Int) (ws : List Workspace) :
    (∃ e, exportGET ic icc now ws = Except.ok e) ↔
      ∀ w ∈ ws, exportWorkspaceOk ic icc w :=
  exportGET_ok_iff ic icc now ws

/-! ## C3 -/

/-- Statement-side decidable condition: the workspace named `wsId` stores a
chat tab whose `tabId` field equals `id`. -/
def chatIdHits (ws : List Workspace) (wsId id : String) : Bool :=
  ws.all (fun w => !(w.name == wsId) ||
    (match w.chatBlob with
     | Blob.ok (some tabs) => tabs.any (fun t => t.tabId == id)
     | _ => false))

/-- A chat tab whose exported conversation id (the raw `id` field) differs
from the raw `tabId` field the lookup matches on. -/
def mismatchTab : ChatTab :=
  { id := "a", tabId := "b", title := "M", timestamp := 0, bubbles := [] }

/-- A store holding only the mismatched tab. -/
def mismatchStore : List Workspace :=
  [ { name := "wm", chatBlob := Blob.ok (some [mismatchTab]) } ]

/-- C3 counterexample: the full bulk export over `mismatchStore` contains
exactly one conversation, of type chat with id `"a"` in workspace `"wm"`,
yet looking that conversation up by its id, type and workspace id returns
not-found, because the lookup matches the raw `tabId` field (`"b"`) while
the export had emitted the raw `id` field (`"a"`). -/
theorem c3_counterexample :
    (∃ e, exportGET true true 0 mismatchStore = Except.ok e ∧
      e.conversations.map (fun c => (c.id, c.type, c.workspace.id)) =
        [("a", "chat", "wm")]) ∧
    conversationGET mismatchStore "a" (some "wm") (some "chat") =
      LookupResponse.notFound :=
  ⟨⟨_, rfl, rfl⟩, rfl⟩

/-- C3 amended: for every conversation of a successful full bulk export
over a store with distinct, non-empty workspace names, the single-
conversation lookup by the conversation's id, type and workspace id
returns a success payload whose metadata id equals the requested id —
unconditionally for composer conversations, and for chat conversations
under the extra premise that the workspace stores some tab whose `tabId`
equals the exported id (which the export itself does not guarantee, since
it emits the separate raw `id` field). -/
theorem c3_amended_round_trip (ws : List Workspace) (now : Int)
    (hnd : (ws.map (fun w => w.name)).Nodup)
    (e : ExportData) (hex : exportGET true true now ws = Except.ok e)
    (conv : ExportedConversation) (hmem : conv ∈ e.conversations)
    (hne : conv.workspace.id ≠ "")
    (hchat : conv.type = "chat" → chatIdHits ws conv.workspace.id conv.id = true) :
    ∃ r, conversationGET ws conv.id (some conv.workspace.id) (some conv.type) =
      LookupResponse.ok r conv.id conv.type conv.workspace.id := by
  obtain ⟨convs, hcoll, he⟩ := exportGET_conversations true true now ws e hex
  rw [he] at hmem
  have hmem' := mem_sortDesc.mp hmem
  obtain ⟨w, hwmem, lw, hok, hconv⟩ := mem_collectExport true true hcoll hmem'
  obtain ⟨hdir, hdb, hopen, hcase⟩ := mem_workspaceConversations hok hconv
  have hfindw := find?_name_of_nodup hnd hwmem
  rcases hcase with ⟨-, cs, hblob, c, hc, rfl⟩ | ⟨-, tabs, hblob, t, ht, rfl⟩
  · -- composer conversation
    have hne' : w.name ≠ "" := hne
    show ∃ r, conversationGET ws c.composerId (some w.name) (some "composer") =
      LookupResponse.ok r c.composerId "composer" w.name
    rw [conversationGET]
    rw [if_neg (by push_neg; exact ⟨hne', by simp⟩ :
      ¬(w.name = "" ∨ ("composer" : String) = ""))]
    rw [if_neg (by simp : ¬(("composer" : String) ≠ "chat" ∧
      ("composer" : String) ≠ "composer"))]
    rw [hfindw]
    simp only [hdb, hopen, Bool.not_true, Bool.false_eq_true, if_false, reduceIte]
    rw [lookupComposer, hblob]
    obtain ⟨c', hfind, hpc⟩ := @find?_exists ComposerChat
      (fun x => x.composerId == c.composerId) c cs hc (by simp)
    have hcid : c'.composerId = c.composerId := by simpa using hpc
    simp only [hfind, hcid]
    exact ⟨_, rfl⟩
  · -- chat conversation
    have hne' : w.name ≠ "" := hne
    have hhits : chatIdHits ws w.name t.id = true := hchat rfl
    show ∃ r, conversationGET ws t.id (some w.name) (some "chat") =
      LookupResponse.ok r t.id "chat" w.name
    have hall := (List.all_eq_true.mp hhits) w hwmem
    rw [hblob] at hall
    have hor : (!(w.name == w.name) || tabs.any (fun x => x.tabId == t.id)) = true := hall
    have hany : tabs.any (fun x => x.tabId == t.id) = true := by
      simpa using hor
    obtain ⟨t', ht', hpt⟩ := List.any_eq_true.mp hany
    rw [conversationGET]
    rw [if_neg (by push_neg; exact ⟨hne', by simp⟩ :
      ¬(w.name = "" ∨ ("chat" : String) = ""))]
    rw [if_neg (by simp : ¬(("chat" : String) ≠ "chat" ∧
      ("chat" : String) ≠ "composer"))]
    rw [hfindw]
    simp only [hdb, hopen, Bool.not_true, Bool.false_eq_true, if_false, reduceIte]
    rw [lookupChat, hblob]
    obtain ⟨t'', hfind, hpt'⟩ := @find?_exists ChatTab
      (fun x => x.tabId == t.id) t' tabs ht' hpt
    have htid : t''.tabId = t.id := by simpa using hpt'
    simp only [hfind, htid]
    exact ⟨_, rfl⟩

/-- A store whose single chat tab has matching `id` and `tabId`. -/
def roundTripStore : List Workspace :=
  [ { name := "wr"
      chatBlob := Blob.ok (some
        [ { id := "t1", tabId := "t1", title := "R", timestamp := 0, bubbles := [] } ]) } ]

/-- The export the round-trip store produces. -/
def roundTripExport : ExportData :=
  match exportGET true true 0 roundTripStore with
  | Except.ok e => e
  | Except.error _ => default

/-- The single conversation of that export. -/
def roundTripConv : ExportedConversation :=
  roundTripExport.conversations.headD default

theorem c3_witness :
    ∃ r, conversationGET roundTripStore roundTripConv.id
        (some roundTripConv.workspace.id) (some roundTripConv.type) =
      LookupResponse.ok r roundTripConv.id roundTripConv.type
        roundTripConv.workspace.id := by
  have hconvs : roundTripExport.conversations = [roundTripConv] := rfl
  exact c3_amended_round_trip roundTripStore 0 (by decide) roundTripExport rfl
    roundTripConv (by rw [hconvs]; exact List.mem_singleton.mpr rfl)
    (by decide) (by decide)

/-! ## C4 -/

/-- The top-level field names of a serialized `ExportedConversation` — the
object literal the export route constructs. -/
def exportedConversationTopKeys : List String :=
  [ "id", "type", "title", "messages", "createdAt", "lastUpdatedAt",
    "formattedCreatedAt", "formattedLastUpdatedAt", "workspace", "summary" ]

/-- The top-level field names of the raw composer record as serialized in
the lookup response (restricted to the modelled fields; the raw store may
carry more keys, which only widens the difference from the canonical
shape). Order among a raw record's keys is store-controlled; only
membership is relied upon below. -/
def rawComposerTopKeys (c : ComposerChat) : List String :=
  [ "composerId" ] ++
    (match c.name with | some _ => ["name"] | none => []) ++
    [ "createdAt", "lastUpdatedAt" ] ++
    (match c.conversation with | some _ => ["conversation"] | none => []) ++
    (match c.context with | some _ => ["context"] | none => [])

/-- The top-level field names of a raw chat tab as serialized in the lookup
response (modelled fields only). -/
def rawChatTabTopKeys : List String :=
  [ "id", "tabId", "title", "timestamp", "bubbles" ]

/-- The top-level keys of the record a successful lookup returns. -/
def lookupRecordTopKeys : LookupRecord → List String
  | LookupRecord.composer c => rawComposerTopKeys c
  | LookupRecord.chat _ => rawChatTabTopKeys

/-- A one-workspace store for exercising the lookup. -/
def lookupStore : List Workspace :=
  [ { name := "w1", composerBlob := Blob.ok [composerNoContext] } ]

/-- C4 counterexample: at a concrete store, the successful composer lookup
returns the raw record (with its `conversation` defaulted), whose
serialized top-level key list contains `composerId` and is not the
canonical conversation's key list — so the returned record cannot be
byte-for-byte equal to the `ExportedConversation` the bulk export produces
for the same raw input, which refutes the claimed batch/point shape
equivalence. -/
theorem c4_counterexample :
    conversationGET lookupStore "c0" (some "w1") (some "composer") =
        LookupResponse.ok (LookupRecord.composer (ensureConversation composerNoContext))
          "c0" "composer" "w1" ∧
      lookupRecordTopKeys (LookupRecord.composer (ensureConversation composerNoContext)) ≠
        exportedConversationTopKeys ∧
      "composerId" ∈
        lookupRecordTopKeys (LookupRecord.composer (ensureConversation composerNoContext)) ∧
      "composerId" ∉ exportedConversationTopKeys :=
  ⟨rfl, by decide, by decide, by decide⟩

/-- C4 amended: the point path is a raw passthrough, not a re-normalization:
a successful composer lookup returns exactly the raw stored record located
by `composerId` (its `conversation` field defaulted to an empty list when
absent) and a successful chat lookup returns exactly the raw stored tab
located by `tabId`, each wrapped with metadata — the canonical
`ExportedConversation` shape of the batch path is not produced, and the two
serialized shapes differ. -/
theorem c4_amended_lookup_raw_passthrough :
    (∀ (ws : List Workspace) (id wsId : String) (r : LookupRecord)
        (mid mty mws : String),
      conversationGET ws id (some wsId) (some "composer") =
          LookupResponse.ok r mid mty mws →
        ∃ w, ws.find? (fun x => x.name == wsId) = some w ∧
          ∃ cs, w.composerBlob = Blob.ok cs ∧
            ∃ c, cs.find? (fun x => x.composerId == id) = some c ∧
              r = LookupRecord.composer (ensureConversation c) ∧
              mid = c.composerId ∧ mty = "composer" ∧ mws = wsId) ∧
    (∀ (ws : List Workspace) (id wsId : String) (r : LookupRecord)
        (mid mty mws : String),
      conversationGET ws id (some wsId) (some "chat") =
          LookupResponse.ok r mid mty mws →
        ∃ w, ws.find? (fun x => x.name == wsId) = some w ∧
          ∃ tabs, w.chatBlob = Blob.ok (some tabs) ∧
            ∃ t, tabs.find? (fun x => x.tabId == id) = some t ∧
              r = LookupRecord.chat t ∧
              mid = t.tabId ∧ mty = "chat" ∧ mws = wsId) := by
  constructor
  · intro ws id wsId r mid mty mws h
    rw [conversationGET] at h
    by_cases h1 : wsId = "" ∨ ("composer" : String) = ""
    · rw [if_pos h1] at h; cases h
    rw [if_neg h1] at h
    rw [if_neg (by simp : ¬(("composer" : String) ≠ "chat" ∧
      ("composer" : String) ≠ "composer"))] at h
    rcases hfind : ws.find? (fun x => x.name == wsId) with _ | w <;>
      simp only [hfind] at h
    · cases h
    refine ⟨w, hfind, ?_⟩
    rcases hdb : w.hasDb with _ | _
    · simp only [hdb, Bool.not_false, if_true] at h; cases h
    simp only [hdb, Bool.not_true, Bool.false_eq_true, if_false] at h
    rcases hopen : w.dbOpenFails with _ | _
    swap
    · simp only [hopen, if_true] at h; cases h
    simp only [hopen, Bool.false_eq_true, if_false, reduceIte] at h
    rw [lookupComposer] at h
    rcases hblob : w.composerBlob with _ | _ | cs <;> simp only [hblob] at h
    · cases h
    · cases h
    refine ⟨cs, rfl, ?_⟩
    rcases hfc : cs.find? (fun x => x.composerId == id) with _ | c <;>
      simp only [hfc] at h
    · cases h
    cases h
    exact ⟨c, hfc, rfl, rfl, rfl, rfl⟩
  · intro ws id wsId r mid mty mws h
    rw [conversationGET] at h
    by_cases h1 : wsId = "" ∨ ("chat" : String) = ""
    · rw [if_pos h1] at h; cases h
    rw [if_neg h1] at h
    rw [if_neg (by simp : ¬(("chat" : String) ≠ "chat" ∧
      ("chat" : String) ≠ "composer"))] at h
    rcases hfind : ws.find? (fun x => x.name == wsId) with _ | w <;>
      simp only [hfind] at h
    · cases h
    refine ⟨w, hfind, ?_⟩
    rcases hdb : w.hasDb with _ | _
    · simp only [hdb, Bool.not_false, if_true] at h; cases h
    simp only [hdb, Bool.not_true, Bool.false_eq_true, if_false] at h
    rcases hopen : w.dbOpenFails with _ | _
    swap
    · simp only [hopen, if_true] at h; cases h
    simp only [hopen, Bool.false_eq_true, if_false, reduceIte] at h
    rw [lookupChat] at h
    rcases hblob : w.chatBlob with _ | _ | tabs <;> simp only [hblob] at h
    · cases h
    · cases h
    rcases tabs with _ | tabs
    · cases h
    refine ⟨tabs, rfl, ?_⟩
    rcases hft : tabs.find? (fun x => x.tabId == id) with _ | t <;>
      simp only [hft] at h
    · cases h
    cases h
    exact ⟨t, hft, rfl, rfl, rfl, rfl⟩

theorem c4_witness :
    ∃ w, lookupStore.find? (fun x => x.name == "w1") = some w ∧
      ∃ cs, w.composerBlob = Blob.ok cs ∧
        ∃ c, cs.find? (fun x => x.composerId == "c0") = some c ∧
          LookupRecord.composer (ensureConversation composerNoContext) =
            LookupRecord.composer (ensureConversation c) ∧
          ("c0" : String) = c.composerId ∧ ("composer" : String) = "composer" ∧
          ("w1" : String) = "w1" :=
  c4_amended_lookup_raw_passthrough.1 lookupStore "c0" "w1"
    (LookupRecord.composer (ensureConversation composerNoContext)) "c0" "composer" "w1" rfl
